import Mathlib

/-!
Shallow embedding of the conversation domain model of this repository
(`src/services/conversation_service/src/domain/`):

* `message.py` — the `Message` dataclass, `MessageType` enum, and the
  `update_content` method;
* `conversation.py` — the `Conversation` dataclass and its methods
  `add_message`, `update_title`, `archive`, `unarchive`,
  `get_latest_messages`;
* `exceptions.py` — the domain exception taxonomy (only the constructors
  needed by the claims are modelled, together with Python's builtin
  `ValueError`, which is the exception the model code actually raises).

Modelling conventions:

* `datetime.utcnow()` values are modelled as natural numbers; each call to
  `utcnow()` is an explicit argument of the operation that performs it, and
  clock monotonicity is an explicit hypothesis where a claim needs it.
* `UUID` values are modelled as natural numbers (opaque identifiers).
* Python `str` is Lean `String`; `str.strip()` with no argument is modelled
  over the ASCII whitespace characters (the only ones the claims exercise).
* Methods that mutate `self` are state-passing functions returning the new
  object; methods that can raise return a pair `Option PyExn × State`, where
  the state component is the object after the call (the original object when
  the exception is raised before any assignment, as in the source).
* Python's `dict` metadata is modelled as an association list with opaque
  (string) values; no claim inspects it.
-/

/-- Python's builtin exception values relevant to the claims: `ValueError`
(raised by `Message.update_content` and `Conversation.update_title`) and the
domain exception `ValidationError` defined in `exceptions.py` (a subclass of
`DomainException`, which is NOT a subclass of `ValueError`; the model code
never raises it). -/
inductive PyExn where
  | valueError (msg : String)
  | validationError (msg : String)
  deriving DecidableEq, Repr

/-- Whitespace test used by Python's `str.strip()`; modelled over the ASCII
whitespace characters (space, tab, newline, carriage return, vertical tab,
form feed), which cover every input appearing in the spec and claims. -/
def pyIsSpace (c : Char) : Bool :=
  c = ' ' || c = '\t' || c = '\n' || c = '\r' || c = Char.ofNat 11 || c = Char.ofNat 12

/-- Python's `s.strip()` (no argument): remove leading and trailing
whitespace characters. -/
def pyStrip (s : String) : String :=
  ⟨((s.data.dropWhile pyIsSpace).reverse.dropWhile pyIsSpace).reverse⟩

/-- Translation of the `MessageType` enum of `message.py`. -/
inductive MessageType where
  | USER
  | AI
  | SYSTEM
  deriving DecidableEq, Repr

/-- Metadata dictionary (`Dict` in `message.py`), modelled as an association
list with opaque string values; no claim inspects the values. -/
abbrev Metadata := List (String × String)

/-- Translation of the `Message` dataclass of `message.py`: the fields, in
source order. -/
structure Message where
  content : String
  sender_id : Nat
  message_type : MessageType
  conversation_id : Nat
  id : Nat
  timestamp : Nat
  metadata : Metadata
  deriving DecidableEq, Repr

/-- Translation of the `Message` dataclass constructor `Message(...)`: every
field is assigned exactly as given.  There is no `__post_init__` and no
validation of any kind in the source; construction always succeeds. -/
def Message.make (content : String) (sender_id : Nat) (message_type : MessageType)
    (conversation_id : Nat) (id : Nat) (timestamp : Nat) (metadata : Metadata) : Message :=
  ⟨content, sender_id, message_type, conversation_id, id, timestamp, metadata⟩

/-- Translation of `Message.update_content`: raise
`ValueError("Message content cannot be empty")` when `not new_content or
new_content.strip() == ""`, else assign `self.content = new_content`.  The
raise happens before any assignment, so on failure the returned state is the
unchanged receiver. -/
def Message.update_content (m : Message) (new_content : String) : Option PyExn × Message :=
  if new_content = "" ∨ pyStrip new_content = "" then
    (some (PyExn.valueError "Message content cannot be empty"), m)
  else
    (none, { m with content := new_content })

/-- Translation of the `Conversation` dataclass of `conversation.py`: the
fields, in source order. -/
structure Conversation where
  title : String
  created_by : Nat
  id : Nat
  created_at : Nat
  updated_at : Nat
  is_archived : Bool
  messages : List Message
  deriving DecidableEq, Repr

/-- Translation of the `Conversation` dataclass constructor called with all
defaulted fields left out, `Conversation(title, created_by)`: the
`default_factory` calls run in field order, so `created_at` receives the
value of the first `datetime.utcnow()` call (`t_created`) and `updated_at`
the value of the second (`t_updated`); `is_archived` defaults to `False` and
`messages` to `[]`.  No validation is performed. -/
def Conversation.make (title : String) (created_by : Nat) (id : Nat)
    (t_created : Nat) (t_updated : Nat) : Conversation :=
  ⟨title, created_by, id, t_created, t_updated, false, []⟩

/-- Translation of `Conversation.add_message`: `self.messages.append(message)`
then `self.updated_at = datetime.utcnow()` (the clock value is the explicit
argument `now`).  No check relates `message.conversation_id` to `self.id`. -/
def Conversation.add_message (c : Conversation) (message : Message) (now : Nat) : Conversation :=
  { c with messages := c.messages ++ [message], updated_at := now }

/-- Translation of `Conversation.update_title`: raise
`ValueError("Conversation title cannot be empty")` when `not new_title or
new_title.strip() == ""`, else assign the title and `updated_at`.  The raise
happens before any assignment, so on failure the returned state is the
unchanged receiver. -/
def Conversation.update_title (c : Conversation) (new_title : String) (now : Nat) :
    Option PyExn × Conversation :=
  if new_title = "" ∨ pyStrip new_title = "" then
    (some (PyExn.valueError "Conversation title cannot be empty"), c)
  else
    (none, { c with title := new_title, updated_at := now })

/-- Translation of `Conversation.archive`: `self.is_archived = True` and
`self.updated_at = datetime.utcnow()`, unconditionally. -/
def Conversation.archive (c : Conversation) (now : Nat) : Conversation :=
  { c with is_archived := true, updated_at := now }

/-- Translation of `Conversation.unarchive`: `self.is_archived = False` and
`self.updated_at = datetime.utcnow()`, unconditionally. -/
def Conversation.unarchive (c : Conversation) (now : Nat) : Conversation :=
  { c with is_archived := false, updated_at := now }

/-- Insertion step of the stable descending sort: the new element `m` is
placed after every element whose timestamp is `≥ m.timestamp` (so elements
with equal timestamps keep their earlier position) and before the first
element whose timestamp is strictly smaller. -/
def insertDesc (m : Message) : List Message → List Message
  | [] => [m]
  | x :: xs => if m.timestamp ≤ x.timestamp then x :: insertDesc m xs else m :: x :: xs

/-- Translation of `sorted(self.messages, key=lambda m: m.timestamp,
reverse=True)`.  Python's `sorted` is a stable sort, and with `reverse=True`
it yields the elements in descending key order with ties kept in input
order; a stable sort by a total preorder is extensionally unique, and this
left-to-right insertion sort computes exactly that list (permutation,
descending order and stability are proved below). -/
def sortByTimestampDesc (l : List Message) : List Message :=
  l.foldl (fun acc m => insertDesc m acc) []

/-- Length of the Python slice `l[:k]` for an `int` index `k`: the first `k`
elements when `k ≥ 0`, and all but the last `|k|` elements when `k < 0`
(clamped at zero either way). -/
def pySliceLen (k : Int) (len : Nat) : Nat :=
  if 0 ≤ k then k.toNat else len - (-k).toNat

/-- Python slice `l[:k]` with an `int` bound `k`. -/
def pySlice (l : List Message) (k : Int) : List Message :=
  l.take (pySliceLen k l.length)

/-- Translation of `Conversation.get_latest_messages`:
`sorted(self.messages, key=lambda m: m.timestamp, reverse=True)[:limit]`.
The source default for `limit` is `10`; claims quantify over the argument. -/
def Conversation.get_latest_messages (c : Conversation) (limit : Int) : List Message :=
  pySlice (sortByTimestampDesc c.messages) limit

/-- State-passing form of the `get_latest_messages` method call: the method
body only reads `self` (`sorted` builds a new list) and assigns no field of
`self`, so the post-state is the receiver. -/
def Conversation.get_latest_messages_call (c : Conversation) (limit : Int) :
    List Message × Conversation :=
  (pySlice (sortByTimestampDesc c.messages) limit, c)

/-- Recognizer for the claim phrase "fails with `ValidationError`": the
outcome is an exception and that exception is the domain `ValidationError`
of `exceptions.py`. -/
def failsWithValidationError (r : Option PyExn) : Bool :=
  match r with
  | some (PyExn.validationError _) => true
  | _ => false

/-! ### Concrete objects used by counterexamples and witnesses -/

/-- Conversation `Conversation("Trip planning", created_by=1)` created with
id `2` and both clock reads at `0`. -/
def convA : Conversation := Conversation.make "Trip planning" 1 2 0 0

/-- Message belonging to `convA` (its `conversation_id` is `convA.id = 2`),
with timestamp `1`. -/
def msgA : Message := Message.make "Where should we go?" 1 MessageType.USER 2 3 1 []

/-- Message belonging to `convA`, with timestamp `2`. -/
def msgB : Message := Message.make "Let us decide soon" 1 MessageType.AI 2 4 2 []

/-- Message whose `conversation_id` is `9`, which is not `convA.id`. -/
def msgOther : Message := Message.make "stray" 3 MessageType.USER 9 5 4 []

/-- Message whose `conversation_id` equals `convA.id`. -/
def msgSame : Message := Message.make "hello" 3 MessageType.USER 2 6 4 []

/-- Conversation holding the two messages `msgA` and `msgB`. -/
def convTwo : Conversation := ⟨"Trip planning", 1, 2, 0, 2, false, [msgA, msgB]⟩

/-! ### Helper lemmas about `pyStrip` -/

/-- Stripping yields the empty string exactly when every character of the
input is whitespace; in particular `s.strip() == ""` holds for the empty
string and for whitespace-only strings, and for no others. -/
theorem pyStrip_eq_empty_iff (s : String) :
    pyStrip s = "" ↔ s.data.all pyIsSpace = true := by
  unfold pyStrip
  constructor
  · intro h
    have hdata : (((s.data.dropWhile pyIsSpace).reverse.dropWhile pyIsSpace).reverse) = [] := by
      have := congrArg String.data h
      simpa using this
    rw [List.reverse_eq_nil_iff, List.dropWhile_eq_nil_iff] at hdata
    have hdrop : ∀ x ∈ s.data.dropWhile pyIsSpace, pyIsSpace x := by
      intro x hx
      exact hdata x (List.mem_reverse.mpr hx)
    rw [List.all_eq_true]
    intro x hx
    rcases List.mem_append.mp
        (by rw [List.takeWhile_append_dropWhile]; exact hx :
          x ∈ s.data.takeWhile pyIsSpace ++ s.data.dropWhile pyIsSpace) with h1 | h2
    · exact List.mem_takeWhile_imp h1
    · exact hdrop x h2
  · intro h
    have h' : ∀ x ∈ s.data, pyIsSpace x := List.all_eq_true.mp h
    have h1 : s.data.dropWhile pyIsSpace = [] :=
      List.dropWhile_eq_nil_iff.mpr fun x hx => h' x hx
    rw [h1]
    rfl

/-- The disjunction tested by the source (`not s or s.strip() == ""`) is
equivalent to "every character is whitespace". -/
theorem empty_or_strip_empty_iff (s : String) :
    (s = "" ∨ pyStrip s = "") ↔ s.data.all pyIsSpace = true := by
  constructor
  · rintro (rfl | h)
    · rfl
    · exact (pyStrip_eq_empty_iff s).mp h
  · intro h
    exact Or.inr ((pyStrip_eq_empty_iff s).mpr h)

/-! ### Helper lemmas about the stable descending sort -/

/-- Inserting an element permutes consing it. -/
theorem insertDesc_perm (m : Message) (acc : List Message) :
    List.Perm (insertDesc m acc) (m :: acc) := by
  induction acc with
  | nil => rfl
  | cons x xs ih =>
    unfold insertDesc
    by_cases h : m.timestamp ≤ x.timestamp
    · simp only [h, if_pos]
      exact (ih.cons x).trans (List.Perm.swap m x xs)
    · simp only [h, if_neg, not_false_iff]
      rfl

/-- The insertion-sort fold permutes appending the remaining input. -/
theorem sortFoldl_perm (l acc : List Message) :
    List.Perm (l.foldl (fun acc m => insertDesc m acc) acc) (acc ++ l) := by
  induction l generalizing acc with
  | nil => simp
  | cons a l ih =>
    have h1 : (a :: l).foldl (fun acc m => insertDesc m acc) acc
        = l.foldl (fun acc m => insertDesc m acc) (insertDesc a acc) := rfl
    rw [h1]
    exact ((ih _).trans ((insertDesc_perm a acc).append_right l)).trans List.perm_middle.symm

/-- The sort is a permutation of its input. -/
theorem sortByTimestampDesc_perm (l : List Message) :
    List.Perm (sortByTimestampDesc l) l := by
  simpa using sortFoldl_perm l []

/-- Inserting into a list that is sorted by timestamp in descending order
keeps it sorted. -/
theorem insertDesc_pairwise {acc : List Message}
    (h : acc.Pairwise (fun a b => b.timestamp ≤ a.timestamp)) (m : Message) :
    (insertDesc m acc).Pairwise (fun a b => b.timestamp ≤ a.timestamp) := by
  induction acc with
  | nil => simp [insertDesc]
  | cons x xs ih =>
    unfold insertDesc
    by_cases hle : m.timestamp ≤ x.timestamp
    · simp only [hle, if_pos]
      rw [List.pairwise_cons]
      refine ⟨?_, ih (List.Pairwise.of_cons h)⟩
      intro y hy
      have hy' : y ∈ m :: xs := (insertDesc_perm m xs).mem_iff.mp hy
      rcases List.mem_cons.mp hy' with rfl | hy''
      · exact hle
      · exact (List.pairwise_cons.mp h).1 y hy''
    · simp only [hle, if_neg, not_false_iff]
      rw [List.pairwise_cons]
      refine ⟨?_, h⟩
      intro y hy
      rcases List.mem_cons.mp hy with rfl | hy'
      · exact Nat.le_of_not_le hle
      · exact Nat.le_trans ((List.pairwise_cons.mp h).1 y hy') (Nat.le_of_not_le hle)

/-- The insertion-sort fold keeps a sorted accumulator sorted. -/
theorem sortFoldl_pairwise (l : List Message) (acc : List Message)
    (h : acc.Pairwise (fun a b => b.timestamp ≤ a.timestamp)) :
    (l.foldl (fun acc m => insertDesc m acc) acc).Pairwise
      (fun a b => b.timestamp ≤ a.timestamp) := by
  induction l generalizing acc with
  | nil => exact h
  | cons a l ih => exact ih _ (insertDesc_pairwise h a)

/-- The sort result is sorted by timestamp in descending order. -/
theorem sortByTimestampDesc_pairwise (l : List Message) :
    (sortByTimestampDesc l).Pairwise (fun a b => b.timestamp ≤ a.timestamp) :=
  sortFoldl_pairwise l [] (List.Pairwise.nil)

/-- Inserting a message whose timestamp is not `t` does not change the
sublist of messages with timestamp `t`. -/
theorem insertDesc_filter_ne (m : Message) (acc : List Message) (t : Nat)
    (hm : m.timestamp ≠ t) :
    (insertDesc m acc).filter (fun x => x.timestamp == t) =
      acc.filter (fun x => x.timestamp == t) := by
  have hmb : (m.timestamp == t) = false := by simpa using hm
  induction acc with
  | nil => simp [insertDesc, List.filter_cons, hmb]
  | cons x xs ih =>
    unfold insertDesc
    by_cases hle : m.timestamp ≤ x.timestamp
    · simp only [hle, if_pos]
      rcases Bool.eq_false_or_eq_true (x.timestamp == t) with hx | hx
      · simp [List.filter_cons, hx, ih]
      · simp [List.filter_cons, hx, ih]
    · simp only [hle, if_neg, not_false_iff]
      simp [List.filter_cons, hmb]

/-- Inserting a message whose timestamp is `t` into a descending-sorted
accumulator appends it after every earlier message with timestamp `t`. -/
theorem insertDesc_filter_eq (m : Message) (acc : List Message) (t : Nat)
    (hacc : acc.Pairwise (fun a b => b.timestamp ≤ a.timestamp))
    (hm : m.timestamp = t) :
    (insertDesc m acc).filter (fun x => x.timestamp == t) =
      acc.filter (fun x => x.timestamp == t) ++ [m] := by
  have hmb : (m.timestamp == t) = true := by simpa using hm
  induction acc with
  | nil => simp [insertDesc, List.filter_cons, hmb]
  | cons x xs ih =>
    unfold insertDesc
    by_cases hle : m.timestamp ≤ x.timestamp
    · simp only [hle, if_pos]
      have ih' := ih (List.Pairwise.of_cons hacc)
      rcases Bool.eq_false_or_eq_true (x.timestamp == t) with hx | hx
      · simp [List.filter_cons, hx, ih']
      · simp [List.filter_cons, hx, ih']
    · simp only [hle, if_neg, not_false_iff]
      have hxs : ∀ y ∈ x :: xs, y.timestamp ≠ t := by
        intro y hy
        rcases List.mem_cons.mp hy with rfl | hy'
        · intro hcon
          exact hle (hm ▸ hcon ▸ Nat.le_refl _)
        · intro hcon
          have h1 : y.timestamp ≤ x.timestamp := (List.pairwise_cons.mp hacc).1 y hy'
          have h2 : m.timestamp ≤ x.timestamp := by
            rw [hm, ← hcon]; exact h1
          exact hle h2
      have hfil : (x :: xs).filter (fun y => y.timestamp == t) = [] := by
        rw [List.filter_eq_nil_iff]
        intro y hy
        simpa using hxs y hy
      rw [List.filter_cons, hmb]
      simp only [if_pos]
      rw [hfil]
      rfl

/-- The insertion-sort fold preserves the sublists of equal-timestamp
messages: equal timestamps end up in input order (stability). -/
theorem sortFoldl_filter (l : List Message) (acc : List Message) (t : Nat)
    (hacc : acc.Pairwise (fun a b => b.timestamp ≤ a.timestamp)) :
    (l.foldl (fun acc m => insertDesc m acc) acc).filter (fun x => x.timestamp == t) =
      acc.filter (fun x => x.timestamp == t) ++ l.filter (fun x => x.timestamp == t) := by
  induction l generalizing acc with
  | nil => simp
  | cons a l ih =>
    have step := ih (insertDesc a acc) (insertDesc_pairwise hacc a)
    by_cases ha : a.timestamp = t
    · have hab : (a.timestamp == t) = true := by simpa using ha
      rw [List.foldl_cons, step, insertDesc_filter_eq a acc t hacc ha]
      simp [List.filter_cons, hab]
    · have hab : (a.timestamp == t) = false := by simpa using ha
      rw [List.foldl_cons, step, insertDesc_filter_ne a acc t ha]
      simp [List.filter_cons, hab]

/-- Stability of the sort: for every timestamp value `t`, the messages with
timestamp `t` appear in the sorted list exactly in their input order. -/
theorem sortByTimestampDesc_filter (l : List Message) (t : Nat) :
    (sortByTimestampDesc l).filter (fun x => x.timestamp == t) =
      l.filter (fun x => x.timestamp == t) := by
  simpa using sortFoldl_filter l [] t List.Pairwise.nil

/-- Every prefix of the descending sort is itself sorted, its members come
from the input, and every input message left out of the prefix has a
timestamp no larger than any member of the prefix. -/
theorem take_sorted_spec (l : List Message) (n : Nat) :
    (List.take n (sortByTimestampDesc l)).Pairwise (fun a b => b.timestamp ≤ a.timestamp) ∧
    (∀ m ∈ List.take n (sortByTimestampDesc l), m ∈ l) ∧
    (∀ x ∈ List.take n (sortByTimestampDesc l), ∀ y ∈ l,
        y ∉ List.take n (sortByTimestampDesc l) → y.timestamp ≤ x.timestamp) := by
  have hperm := sortByTimestampDesc_perm l
  have hsorted := sortByTimestampDesc_pairwise l
  refine ⟨List.Pairwise.sublist (List.take_sublist n _) hsorted, ?_, ?_⟩
  · intro m hm
    exact hperm.mem_iff.mp ((List.take_sublist n _).subset hm)
  · intro x hx y hy hynot
    have hys : y ∈ sortByTimestampDesc l := hperm.mem_iff.mpr hy
    have hsplit : y ∈ List.take n (sortByTimestampDesc l) ++ List.drop n (sortByTimestampDesc l) := by
      rw [List.take_append_drop]
      exact hys
    rcases List.mem_append.mp hsplit with h1 | h2
    · exact absurd h1 hynot
    · have hs' : (List.take n (sortByTimestampDesc l) ++
          List.drop n (sortByTimestampDesc l)).Pairwise (fun a b => b.timestamp ≤ a.timestamp) := by
        rw [List.take_append_drop]
        exact hsorted
      exact ((List.pairwise_append.mp hs').2.2) x hx y h2

/-! ## Claim theorems -/

/-- C1, counterexample: the `Message` dataclass constructor performs no
validation, so a `Message` whose `content` is the empty string is
constructed successfully (construction is a total function and raises
nothing, in particular not `ValidationError`), and after construction its
`content` is empty — refuting both halves of the claim. -/
theorem message_construction_accepts_empty_content :
    (Message.make "" 0 MessageType.USER 0 0 0 []).content = "" ∧
    ("".data.all pyIsSpace) = true := by
  exact ⟨rfl, rfl⟩

/-- C1, amended: construction performs no content validation (the
constructor stores any `content` verbatim), but `update_content` rejects
empty or whitespace-only content with `ValueError` and leaves the message
unchanged, so content is never empty or whitespace-only after a successful
`update_content`. -/
theorem message_content_never_empty_after_update (content : String) (sid : Nat)
    (mt : MessageType) (cid mid ts : Nat) (md : Metadata) (m : Message) (nc : String) :
    (Message.make content sid mt cid mid ts md).content = content ∧
    ((m.update_content nc).1 = none →
      ((m.update_content nc).2.content.data.all pyIsSpace) = false) ∧
    ((nc.data.all pyIsSpace) = true →
      m.update_content nc = (some (PyExn.valueError "Message content cannot be empty"), m)) := by
  refine ⟨rfl, ?_, ?_⟩
  · intro h
    by_cases hbad : nc = "" ∨ pyStrip nc = ""
    · unfold Message.update_content at h
      rw [if_pos hbad] at h
      exact absurd h (by simp)
    · unfold Message.update_content at h ⊢
      rw [if_neg hbad]
      have hnotall : ¬ ((nc.data.all pyIsSpace) = true) := fun hall =>
        hbad ((empty_or_strip_empty_iff nc).mpr hall)
      simpa using hnotall
  · intro h
    have hbad : nc = "" ∨ pyStrip nc = "" := (empty_or_strip_empty_iff nc).mpr h
    unfold Message.update_content
    rw [if_pos hbad]

/-- C1, witness for the amended theorem at concrete inputs. -/
theorem message_content_never_empty_after_update_witness :
    Message.update_content msgA " " =
      (some (PyExn.valueError "Message content cannot be empty"), msgA) :=
  (message_content_never_empty_after_update "hi" 0 MessageType.USER 0 0 0 [] msgA " ").2.2
    (by decide)

/-- C2, counterexample: `add_message` performs no check relating
`message.conversation_id` to `self.id`, so adding `msgOther` (whose
`conversation_id` is `9`) to `convA` (whose `id` is `2`) succeeds and leaves
the conversation holding a message that does not carry the conversation's
id — refuting the claimed invariant preservation for every argument
message. -/
theorem add_message_accepts_foreign_conversation_id :
    ((convA.add_message msgOther 7).messages.all
        (fun x => x.conversation_id == (convA.add_message msgOther 7).id)) = false := by
  decide

/-- C2, amended: `add_message` itself checks nothing; assuming every message
already in the conversation carries the conversation's id, the invariant
holds after `add_message` exactly when the added message's
`conversation_id` equals the conversation's id (a caller obligation, per the
spec's own §4.2 note). -/
theorem add_message_preserves_conversation_id_invariant (c : Conversation) (m : Message)
    (now : Nat) (hinv : ∀ x ∈ c.messages, x.conversation_id = c.id) :
    (∀ x ∈ (c.add_message m now).messages,
        x.conversation_id = (c.add_message m now).id) ↔ m.conversation_id = c.id := by
  constructor
  · intro h
    have hm : m ∈ (c.add_message m now).messages := by
      simp [Conversation.add_message]
    simpa [Conversation.add_message] using h m hm
  · intro hm x hx
    simp only [Conversation.add_message, List.mem_append, List.mem_singleton] at hx
    rcases hx with hx | rfl
    · simpa [Conversation.add_message] using hinv x hx
    · simpa [Conversation.add_message] using hm

/-- C2, witness for the amended theorem: for the empty conversation `convA`
and the matching message `msgSame` the equivalence holds concretely. -/
theorem add_message_preserves_conversation_id_invariant_witness :
    (∀ x ∈ (convA.add_message msgSame 7).messages,
        x.conversation_id = (convA.add_message msgSame 7).id) ↔
      msgSame.conversation_id = convA.id :=
  add_message_preserves_conversation_id_invariant convA msgSame 7
    (by intro x hx; exact absurd hx (List.not_mem_nil x))

/-- C3, counterexample: `update_title("")` does fail and does leave the
conversation unchanged, but the exception raised is the builtin
`ValueError`, not the domain `ValidationError` of `exceptions.py` — so the
claim's "fails with ValidationError" is false. -/
theorem update_title_raises_valueerror_not_validationerror :
    failsWithValidationError (convA.update_title "" 3).1 = false ∧
    (convA.update_title "" 3).1 =
      some (PyExn.valueError "Conversation title cannot be empty") ∧
    (convA.update_title "" 3).2 = convA := by
  decide

/-- C3, amended: `update_title(t)` fails if and only if `t` is empty or
whitespace-only, raising the builtin `ValueError` (not the domain
`ValidationError`); on failure the conversation is returned entirely
unchanged (prior title and all other fields), and on success the title
becomes `t` and `updated_at` is set to the clock value. -/
theorem update_title_spec (c : Conversation) (t : String) (now : Nat) :
    (((c.update_title t now).1 = none) ↔ (t.data.all pyIsSpace) = false) ∧
    ((t.data.all pyIsSpace) = true →
      c.update_title t now =
        (some (PyExn.valueError "Conversation title cannot be empty"), c)) ∧
    ((t.data.all pyIsSpace) = false →
      c.update_title t now = (none, { c with title := t, updated_at := now })) := by
  by_cases hbad : t = "" ∨ pyStrip t = ""
  · have hall : (t.data.all pyIsSpace) = true := (empty_or_strip_empty_iff t).mp hbad
    unfold Conversation.update_title
    rw [if_pos hbad]
    refine ⟨by simp [hall], fun _ => rfl, ?_⟩
    intro hfalse
    rw [hall] at hfalse
    exact absurd hfalse (by simp)
  · have hall : (t.data.all pyIsSpace) = false := by
      have : ¬ ((t.data.all pyIsSpace) = true) := fun h =>
        hbad ((empty_or_strip_empty_iff t).mpr h)
      simpa using this
    unfold Conversation.update_title
    rw [if_neg hbad]
    refine ⟨by simp [hall], ?_, fun _ => rfl⟩
    intro htrue
    rw [hall] at htrue
    exact absurd htrue (by simp)

/-- C3, witness for the amended theorem: success and failure cases at
concrete inputs. -/
theorem update_title_spec_witness :
    Conversation.update_title convA "New plan" 9 =
      (none, { convA with title := "New plan", updated_at := 9 }) ∧
    Conversation.update_title convA "   " 9 =
      (some (PyExn.valueError "Conversation title cannot be empty"), convA) :=
  ⟨(update_title_spec convA "New plan" 9).2.2 (by decide),
    (update_title_spec convA "   " 9).2.1 (by decide)⟩

/-- C4, counterexample: `created_at` and `updated_at` come from two distinct
`datetime.utcnow()` default-factory calls; when the clock advances between
them (reads `0` then `1`), the freshly created conversation (with the valid
title "Trip planning") has `created_at < updated_at`, refuting
`created_at == updated_at`. -/
theorem conversation_create_distinct_clock_reads :
    (Conversation.make "Trip planning" 1 2 0 1).created_at = 0 ∧
    (Conversation.make "Trip planning" 1 2 0 1).updated_at = 1 ∧
    (Conversation.make "Trip planning" 1 2 0 1).created_at <
      (Conversation.make "Trip planning" 1 2 0 1).updated_at := by
  decide

/-- C4, amended: for every title and creator id, the freshly created
conversation has `is_archived = false`, an empty message list, and
`created_at ≤ updated_at` whenever the two clock reads are monotone;
`created_at = updated_at` holds exactly when the two `utcnow()` reads
coincide. -/
theorem conversation_create_defaults (title : String) (created_by id t1 t2 : Nat)
    (hclock : t1 ≤ t2) :
    (Conversation.make title created_by id t1 t2).is_archived = false ∧
    (Conversation.make title created_by id t1 t2).messages = [] ∧
    (Conversation.make title created_by id t1 t2).created_at = t1 ∧
    (Conversation.make title created_by id t1 t2).updated_at = t2 ∧
    (Conversation.make title created_by id t1 t2).created_at ≤
      (Conversation.make title created_by id t1 t2).updated_at :=
  ⟨rfl, rfl, rfl, rfl, hclock⟩

/-- C4, witness: with both clock reads equal to `3` the amended claim holds
concretely (and the two timestamps coincide). -/
theorem conversation_create_defaults_witness :
    (Conversation.make "Trip planning" 1 2 3 3).is_archived = false ∧
    (Conversation.make "Trip planning" 1 2 3 3).messages = [] ∧
    (Conversation.make "Trip planning" 1 2 3 3).created_at = 3 ∧
    (Conversation.make "Trip planning" 1 2 3 3).updated_at = 3 ∧
    (Conversation.make "Trip planning" 1 2 3 3).created_at ≤
      (Conversation.make "Trip planning" 1 2 3 3).updated_at :=
  conversation_create_defaults "Trip planning" 1 2 3 3 (by decide)

/-- Folding `add_message` appends the added messages, in call order, to the
existing message list. -/
theorem add_message_foldl_messages (calls : List (Message × Nat)) (c : Conversation) :
    (calls.foldl (fun conv p => conv.add_message p.1 p.2) c).messages =
      c.messages ++ calls.map Prod.fst := by
  induction calls generalizing c with
  | nil => simp
  | cons p ps ih =>
    rw [List.foldl_cons, ih]
    simp [Conversation.add_message]

/-- The running `updated_at` values of the `add_message` fold are exactly
the clock reads of the calls, one per call. -/
theorem add_message_scanl_updated (calls : List (Message × Nat)) (c : Conversation) :
    (List.scanl (fun conv p => conv.add_message p.1 p.2) c calls).map Conversation.updated_at =
      c.updated_at :: calls.map Prod.snd := by
  induction calls generalizing c with
  | nil => simp
  | cons p ps ih =>
    rw [List.scanl_cons]
    simp only [List.singleton_append, List.map_cons, List.cons.injEq, true_and]
    rw [ih]
    simp [Conversation.add_message]

/-- C5: `add_message` is append-only — after the fold over `N` calls the
message list is the original list followed by exactly the added messages in
call order (nothing is removed or reordered), each call sets `updated_at`
to its clock read, and under a monotone clock the `updated_at` values never
decrease across calls. -/
theorem add_message_append_only (c : Conversation) (calls : List (Message × Nat))
    (hmono : List.Chain' (· ≤ ·) (c.updated_at :: calls.map Prod.snd)) :
    (calls.foldl (fun conv p => conv.add_message p.1 p.2) c).messages =
      c.messages ++ calls.map Prod.fst ∧
    (List.scanl (fun conv p => conv.add_message p.1 p.2) c calls).map Conversation.updated_at =
      c.updated_at :: calls.map Prod.snd ∧
    List.Chain' (· ≤ ·)
      ((List.scanl (fun conv p => conv.add_message p.1 p.2) c calls).map
        Conversation.updated_at) := by
  have h2 := add_message_scanl_updated calls c
  refine ⟨add_message_foldl_messages calls c, h2, ?_⟩
  rw [h2]
  exact hmono

/-- C5, witness: two concrete calls with monotone clock reads. -/
theorem add_message_append_only_witness :
    ([(msgA, 1), (msgB, 2)].foldl
        (fun conv p => conv.add_message p.1 p.2) convA).messages =
      convA.messages ++ [(msgA, 1), (msgB, 2)].map Prod.fst ∧
    (List.scanl (fun conv p => conv.add_message p.1 p.2) convA
        [(msgA, 1), (msgB, 2)]).map Conversation.updated_at =
      convA.updated_at :: [(msgA, 1), (msgB, 2)].map Prod.snd ∧
    List.Chain' (· ≤ ·)
      ((List.scanl (fun conv p => conv.add_message p.1 p.2) convA
          [(msgA, 1), (msgB, 2)]).map Conversation.updated_at) :=
  add_message_append_only convA [(msgA, 1), (msgB, 2)]
    (by simp [convA, Conversation.make, List.chain'_cons])

/-- C6, counterexample: Python slicing gives `sorted(...)[:limit]` negative
`int` limits the meaning "all but the last `|limit|` elements", so for a
conversation with two messages `get_latest_messages(-1)` returns one
message — more than the claimed "at most `k`" bound, which is negative. -/
theorem get_latest_messages_negative_limit :
    (convTwo.get_latest_messages (-1)).length = 1 ∧
    (-1 : Int) < ((convTwo.get_latest_messages (-1)).length : Int) := by
  decide

/-- C6, amended: for every nonnegative limit `k`, `get_latest_messages(k)`
returns at most `k` messages, sorted by timestamp in descending order, every
returned message is an element of the conversation's messages, and every
message left out has a timestamp no larger than any returned one (the `k`
most recent); for negative limits Python slice semantics apply instead. -/
theorem get_latest_messages_spec (c : Conversation) (k : Int) (hk : 0 ≤ k) :
    (c.get_latest_messages k).length ≤ k.toNat ∧
    (c.get_latest_messages k).Pairwise (fun a b => b.timestamp ≤ a.timestamp) ∧
    (∀ m ∈ c.get_latest_messages k, m ∈ c.messages) ∧
    (∀ x ∈ c.get_latest_messages k, ∀ y ∈ c.messages,
        y ∉ c.get_latest_messages k → y.timestamp ≤ x.timestamp) := by
  have hrepr : c.get_latest_messages k =
      List.take (pySliceLen k (sortByTimestampDesc c.messages).length)
        (sortByTimestampDesc c.messages) := rfl
  obtain ⟨h2, h3, h4⟩ :=
    take_sorted_spec c.messages (pySliceLen k (sortByTimestampDesc c.messages).length)
  refine ⟨?_, hrepr ▸ h2, hrepr ▸ h3, hrepr ▸ h4⟩
  rw [hrepr]
  have hlen : pySliceLen k (sortByTimestampDesc c.messages).length = k.toNat := by
    unfold pySliceLen
    rw [if_pos hk]
  rw [hlen]
  exact List.length_take_le _ _

/-- C6, witness for the amended theorem at `convTwo` with limit `1`. -/
theorem get_latest_messages_spec_witness :
    (convTwo.get_latest_messages 1).length ≤ (1 : Int).toNat ∧
    (convTwo.get_latest_messages 1).Pairwise (fun a b => b.timestamp ≤ a.timestamp) ∧
    (∀ m ∈ convTwo.get_latest_messages 1, m ∈ convTwo.messages) ∧
    (∀ x ∈ convTwo.get_latest_messages 1, ∀ y ∈ convTwo.messages,
        y ∉ convTwo.get_latest_messages 1 → y.timestamp ≤ x.timestamp) :=
  get_latest_messages_spec convTwo 1 (by decide)

/-- C7: `archive` sets `is_archived` to true and `unarchive` to false; each
sets `updated_at` unconditionally (a second `archive` on an already-archived
conversation still bumps `updated_at`), and `archive` followed by
`unarchive` under a monotone clock ends not archived with the second
`updated_at` at least the first. -/
theorem archive_unarchive_spec (c : Conversation) (t1 t2 : Nat) (h : t1 ≤ t2) :
    (c.archive t1).is_archived = true ∧
    (c.unarchive t1).is_archived = false ∧
    (c.archive t1).updated_at = t1 ∧
    (c.unarchive t1).updated_at = t1 ∧
    ((c.archive t1).archive t2).updated_at = t2 ∧
    ((c.archive t1).archive t2).is_archived = true ∧
    ((c.archive t1).unarchive t2).is_archived = false ∧
    (c.archive t1).updated_at ≤ ((c.archive t1).unarchive t2).updated_at :=
  ⟨rfl, rfl, rfl, rfl, rfl, rfl, rfl, h⟩

/-- C7, witness at concrete clock reads `1 ≤ 2`. -/
theorem archive_unarchive_spec_witness :
    (convA.archive 1).is_archived = true ∧
    (convA.unarchive 1).is_archived = false ∧
    (convA.archive 1).updated_at = 1 ∧
    (convA.unarchive 1).updated_at = 1 ∧
    ((convA.archive 1).archive 2).updated_at = 2 ∧
    ((convA.archive 1).archive 2).is_archived = true ∧
    ((convA.archive 1).unarchive 2).is_archived = false ∧
    (convA.archive 1).updated_at ≤ ((convA.archive 1).unarchive 2).updated_at :=
  archive_unarchive_spec convA 1 2 (by decide)

/-- C8: on valid (not empty, not whitespace-only) new content,
`update_content` succeeds, sets `content` to the new value and changes no
other field (`timestamp`, `id`, `sender_id`, `message_type`,
`conversation_id`, `metadata`); on invalid input it fails and returns the
receiver entirely unchanged. -/
theorem update_content_spec (m : Message) (nc : String) :
    ((nc.data.all pyIsSpace) = false →
      (m.update_content nc).1 = none ∧
      (m.update_content nc).2.content = nc ∧
      (m.update_content nc).2.timestamp = m.timestamp ∧
      (m.update_content nc).2.id = m.id ∧
      (m.update_content nc).2.sender_id = m.sender_id ∧
      (m.update_content nc).2.message_type = m.message_type ∧
      (m.update_content nc).2.conversation_id = m.conversation_id ∧
      (m.update_content nc).2.metadata = m.metadata) ∧
    ((nc.data.all pyIsSpace) = true →
      m.update_content nc = (some (PyExn.valueError "Message content cannot be empty"), m)) := by
  by_cases hbad : nc = "" ∨ pyStrip nc = ""
  · have hall : (nc.data.all pyIsSpace) = true := (empty_or_strip_empty_iff nc).mp hbad
    unfold Message.update_content
    rw [if_pos hbad]
    refine ⟨?_, fun _ => rfl⟩
    intro hfalse
    rw [hall] at hfalse
    exact absurd hfalse (by simp)
  · have hall : (nc.data.all pyIsSpace) = false := by
      have : ¬ ((nc.data.all pyIsSpace) = true) := fun h =>
        hbad ((empty_or_strip_empty_iff nc).mpr h)
      simpa using this
    unfold Message.update_content
    rw [if_neg hbad]
    refine ⟨fun _ => ⟨rfl, rfl, rfl, rfl, rfl, rfl, rfl, rfl⟩, ?_⟩
    intro htrue
    rw [hall] at htrue
    exact absurd htrue (by simp)

/-- C8, witness: success and failure cases at concrete inputs. -/
theorem update_content_spec_witness :
    (Message.update_content msgA "Changed my mind").2.content = "Changed my mind" ∧
    (Message.update_content msgA "Changed my mind").2.timestamp = msgA.timestamp ∧
    Message.update_content msgA "" =
      (some (PyExn.valueError "Message content cannot be empty"), msgA) :=
  ⟨((update_content_spec msgA "Changed my mind").1 (by decide)).2.1,
    ((update_content_spec msgA "Changed my mind").1 (by decide)).2.2.1,
    (update_content_spec msgA "").2 (by decide)⟩

/-- C9: the sort underlying `get_latest_messages` is stable and the result
is deterministic — for every timestamp value `t`, the messages with
timestamp `t` appear in the sorted list exactly in their order in
`messages`, and the messages with timestamp `t` in the returned list form an
initial segment of those in `messages` (insertion order breaks ties). -/
theorem get_latest_messages_stable (c : Conversation) (k : Int) (t : Nat) :
    (sortByTimestampDesc c.messages).filter (fun m => m.timestamp == t) =
      c.messages.filter (fun m => m.timestamp == t) ∧
    ∃ rest, c.messages.filter (fun m => m.timestamp == t) =
      (c.get_latest_messages k).filter (fun m => m.timestamp == t) ++ rest := by
  have hfil := sortByTimestampDesc_filter c.messages t
  refine ⟨hfil, ?_⟩
  refine ⟨(List.drop (pySliceLen k (sortByTimestampDesc c.messages).length)
      (sortByTimestampDesc c.messages)).filter (fun m => m.timestamp == t), ?_⟩
  rw [← hfil]
  have hrepr : c.get_latest_messages k =
      List.take (pySliceLen k (sortByTimestampDesc c.messages).length)
        (sortByTimestampDesc c.messages) := rfl
  rw [hrepr, ← List.filter_append, List.take_append_drop]

/-- C10: the `get_latest_messages` method call does not mutate the
conversation — the post-state agrees with the pre-state on every field
(messages, their order, `updated_at`, `title`, `is_archived`, `created_at`,
`created_by`, `id`), and its value is the usual result. -/
theorem get_latest_messages_no_mutation (c : Conversation) (k : Int) :
    (c.get_latest_messages_call k).2.messages = c.messages ∧
    (c.get_latest_messages_call k).2.updated_at = c.updated_at ∧
    (c.get_latest_messages_call k).2.title = c.title ∧
    (c.get_latest_messages_call k).2.is_archived = c.is_archived ∧
    (c.get_latest_messages_call k).2.created_at = c.created_at ∧
    (c.get_latest_messages_call k).2.created_by = c.created_by ∧
    (c.get_latest_messages_call k).2.id = c.id ∧
    (c.get_latest_messages_call k).2 = c ∧
    (c.get_latest_messages_call k).1 = c.get_latest_messages k :=
  ⟨rfl, rfl, rfl, rfl, rfl, rfl, rfl, rfl, rfl⟩
